import Mathlib

/-!
Verification development for the proposal summarizer
(`src/ethereum/summarize.py`).

Shallow embedding conventions:
* Python strings are embedded as `List Char`; string literals are written
  as `"...".toList`.
* Python exceptions are embedded as `Except PyErr`; the `PyErr` value
  records which kind of exception was raised.
* Decoded YAML values are embedded as the inductive type `Yaml`
  (null / bool / int / float / str / list / dict).  A Python `dict` is an
  insertion-ordered association list.
* `int(x / 1.3)` (Python float division followed by truncation toward
  zero) is embedded as `Int.tdiv (10 * x) 13` (truncating division), which
  agrees with the IEEE double computation for every magnitude occurring
  in this program (all token budgets are at most 512; the two values only
  begin to diverge above roughly 10^15).
* `max_tokens // 4` (Python floor division) is embedded as `Int.fdiv`.
-/

/-- Kinds of Python exceptions that the embedded code can raise. -/
inductive PyErr where
  | typeError
  | attributeError
  | keyError
  | unboundLocalError
deriving DecidableEq

/-- A decoded YAML value, as produced by `yaml.safe_load`: Python
`None` / `bool` / `int` / `float` / `str` / `list` / `dict`.  A float is
kept as its literal text (no float arithmetic is ever performed on it);
a dict is an insertion-ordered association list. -/
inductive Yaml where
  | null
  | bool (b : Bool)
  | int (n : Int)
  | float (lit : List Char)
  | str (s : List Char)
  | list (elems : List Yaml)
  | dict (entries : List (List Char × Yaml))

/-- Python `', '.join` / `'\n'.join` / `' '.join`: concatenate the pieces
with the separator between consecutive pieces (empty list gives `""`). -/
def joinSep (sep : List Char) : List (List Char) → List Char
  | [] => []
  | [x] => x
  | x :: y :: xs => x ++ sep ++ joinSep sep (y :: xs)

/-- `s.lower()` on the ASCII strings used by the program. -/
def lowerStr (s : List Char) : List Char := s.map Char.toLower

/-- `s.upper()` on the ASCII strings used by the program. -/
def upperStr (s : List Char) : List Char := s.map Char.toUpper

/-- Python `s.strip()`: remove leading and trailing whitespace. -/
def pyStrip (s : List Char) : List Char :=
  ((s.dropWhile Char.isWhitespace).reverse.dropWhile Char.isWhitespace).reverse

/-- Accumulator worker for `pyWords` (the accumulator holds the current
word, reversed). -/
def pyWordsAux : List Char → List Char → List (List Char)
  | [], acc => if acc = [] then [] else [acc.reverse]
  | c :: cs, acc =>
    if c.isWhitespace then
      if acc = [] then pyWordsAux cs [] else acc.reverse :: pyWordsAux cs []
    else pyWordsAux cs (c :: acc)

/-- Python `text.split()` with no argument: the maximal runs of
non-whitespace characters (runs of whitespace are collapsed, no empty
words are produced). -/
def pyWords (s : List Char) : List (List Char) := pyWordsAux s []

/-- Python `xs[:k]` for an `int` index `k`: a nonnegative `k` keeps the
first `k` elements; a negative `k` drops the last `-k` elements. -/
def pySlice (xs : List (List Char)) (k : Int) : List (List Char) :=
  if 0 ≤ k then xs.take k.toNat else xs.take (xs.length - (-k).toNat)

/-- Whether `p` occurs as a contiguous substring of `s`
(Python `p in s` for strings). -/
def occursSub (p : List Char) : List Char → Bool
  | [] => p.isPrefixOf []
  | c :: t => p.isPrefixOf (c :: t) || occursSub p t

/-- The part of `s` strictly after the first (leftmost) occurrence of
`p`, or `none` if `p` does not occur.  This is the suffix from which a
regex continues after matching the literal `p` at the leftmost possible
position. -/
def afterFirstSub (p : List Char) : List Char → Option (List Char)
  | [] => if p.isPrefixOf [] then some [] else none
  | c :: t =>
    if p.isPrefixOf (c :: t) then some ((c :: t).drop p.length)
    else afterFirstSub p t

/-- The part of `s` strictly before the first (leftmost) occurrence of
`p`, or `none` if `p` does not occur.  This is what a lazy group `(.*?)`
captures when followed by the literal `p`. -/
def beforeFirstSub (p : List Char) : List Char → Option (List Char)
  | [] => if p.isPrefixOf [] then some [] else none
  | c :: t =>
    if p.isPrefixOf (c :: t) then some []
    else (beforeFirstSub p t).map (c :: ·)

/-- Whether `s` ends with the suffix `suf`. -/
def endsWithList (suf s : List Char) : Bool :=
  suf.reverse.isPrefixOf s.reverse

/-- Split on a separator character, keeping empty pieces
(Python `s.split('\n')` / `s.split(',')`). -/
def splitOnChar (sep : Char) : List Char → List (List Char)
  | [] => [[]]
  | c :: cs =>
    match splitOnChar sep cs with
    | [] => [[c]]
    | h :: t => if c = sep then [] :: h :: t else (c :: h) :: t

/-- Ordered-dict lookup (Python `d[k]` when present / `k in d`). -/
def dictLookup (es : List (List Char × Yaml)) (k : List Char) : Option Yaml :=
  match es with
  | [] => none
  | (k', v) :: rest => if k' = k then some v else dictLookup rest k

/-- Python `d.get(k, default)` on an ordered dict. -/
def dictGetD (es : List (List Char × Yaml)) (k : List Char) (d : Yaml) : Yaml :=
  (dictLookup es k).getD d

/-- Python `d[k] = v` on an ordered dict: replace in place when the key
is present, otherwise append at the end (insertion order). -/
def dictSet (es : List (List Char × Yaml)) (k : List Char) (v : Yaml) :
    List (List Char × Yaml) :=
  match es with
  | [] => [(k, v)]
  | (k', v') :: rest =>
    if k' = k then (k', v) :: rest else (k', v') :: dictSet rest k v

/-- Python membership test `k in v` for a string key `k`: key lookup on a
dict, substring test on a string, element-equality scan on a list;
`None`, ints, bools and floats are not iterable, so the test raises
`TypeError`. -/
def pyIn (k : List Char) : Yaml → Except PyErr Bool
  | .dict es => .ok (dictLookup es k).isSome
  | .str s => .ok (occursSub k s)
  | .list xs => .ok (xs.any fun e => match e with | .str t => t = k | _ => false)
  | _ => .error .typeError

/-- Python subscript `v[k]` for a string key: dict lookup (`KeyError`
when absent); strings and lists reject a string index with `TypeError`,
and so do the remaining scalars. -/
def pyGetItem (v : Yaml) (k : List Char) : Except PyErr Yaml :=
  match v with
  | .dict es =>
    match dictLookup es k with
    | some x => .ok x
    | none => .error .keyError
  | _ => .error .typeError

/-- Python subscript assignment `v[k] = x` for a string key: dict update;
every other value raises `TypeError`. -/
def pySetItem (v : Yaml) (k : List Char) (x : Yaml) : Except PyErr Yaml :=
  match v with
  | .dict es => .ok (.dict (dictSet es k x))
  | _ => .error .typeError

/-- Python `v.get(k, default)`: only dicts have `.get`, every other
value raises `AttributeError`. -/
def pyDictGetD (v : Yaml) (k : List Char) (d : Yaml) : Except PyErr Yaml :=
  match v with
  | .dict es => .ok (dictGetD es k d)
  | _ => .error .attributeError

/-- Python `v.lower()`: only strings have `.lower`, every other value
raises `AttributeError`. -/
def pyLowerV : Yaml → Except PyErr (List Char)
  | .str s => .ok (lowerStr s)
  | _ => .error .attributeError

/-- Python `repr` of a scalar YAML value (used by `str` on a list, which
shows its elements with `repr`).  Nested containers, which the decoder
model never produces as list elements, are shown with a placeholder. -/
def pyRepr0 : Yaml → List Char
  | .null => "None".toList
  | .bool true => "True".toList
  | .bool false => "False".toList
  | .int n => (toString n).toList
  | .float lit => lit
  | .str s => Char.ofNat 39 :: (s ++ [Char.ofNat 39])
  | .list _ => "[...]".toList
  | .dict _ => "\x7b...\x7d".toList

/-- Python `str(v)` / f-string interpolation of a decoded value. -/
def pyStr : Yaml → List Char
  | .null => "None".toList
  | .bool true => "True".toList
  | .bool false => "False".toList
  | .int n => (toString n).toList
  | .float lit => lit
  | .str s => s
  | .list xs => '[' :: (joinSep (", ".toList) (xs.map pyRepr0) ++ [']'])
  | .dict _ => "\x7b...\x7d".toList

/-- The `requires` coercion of `generate_summary` (lines 64–69):
`isinstance(requires, int)` wraps the value in a one-element list (in
Python a `bool` is an `int`, so it is wrapped too); `None` becomes the
empty list; everything else is passed through unchanged. -/
def wrapRequires : Yaml → Yaml
  | .int n => .list [.int n]
  | .bool b => .list [.bool b]
  | .null => .list []
  | r => r

/-- The `requires` value used to build a summary record, for a decoded
metadata mapping `es`: `metadata.get('requires', [])` followed by the
scalar/None coercion (`generate_summary`, lines 64–69). -/
def normalize_requires (es : List (List Char × Yaml)) : Yaml :=
  wrapRequires (dictGetD es ("requires".toList) (.list []))

/-- Whether a decoded value is a YAML/Python list. -/
def isYamlList : Yaml → Bool
  | .list _ => true
  | _ => false

/-- Python `', '.join(str(r) for r in requires)`: joins over an iterable
(a list element-wise, a string character-wise, a dict over its keys);
a non-iterable value (int, float, bool, None) raises `TypeError`. -/
def pyJoinReq : Yaml → Except PyErr (List Char)
  | .list xs => .ok (joinSep (", ".toList) (xs.map pyStr))
  | .str s => .ok (joinSep (", ".toList) (s.map fun c => [c]))
  | .dict es => .ok (joinSep (", ".toList) (es.map fun e => e.1))
  | _ => .error .typeError

/-- Whether a trimmed token is an integer literal (optional sign,
nonempty digit run). -/
def isIntLit (s : List Char) : Bool :=
  match s with
  | '-' :: rest => rest ≠ [] && rest.all Char.isDigit
  | _ => s ≠ [] && s.all Char.isDigit

/-- Digits to a natural number. -/
def digitsToNat (s : List Char) : Nat :=
  s.foldl (fun acc c => 10 * acc + (c.toNat - 48)) 0

/-- Integer literal to an `Int` (assumes `isIntLit`). -/
def intLitToInt (s : List Char) : Int :=
  match s with
  | '-' :: rest => -(digitsToNat rest : Int)
  | _ => (digitsToNat s : Int)

/-- Whether a trimmed token is a simple float literal
(optional sign, digits, one dot, digits). -/
def isFloatLit (s : List Char) : Bool :=
  let body := match s with | '-' :: rest => rest | _ => s
  match splitOnChar '.' body with
  | [a, b] => a ≠ [] && a.all Char.isDigit && b ≠ [] && b.all Char.isDigit
  | _ => false

/-- Model of the external decoder on one trimmed plain YAML scalar:
empty / `null` / `~` decode to null, `true` / `false` to booleans,
integer literals to ints, simple float literals to floats, and any other
plain token to the string itself. -/
def parseScalar (s : List Char) : Yaml :=
  if s = [] then .null
  else if s = "null".toList ∨ s = "~".toList then .null
  else if s = "true".toList then .bool true
  else if s = "false".toList then .bool false
  else if isIntLit s then .int (intLitToInt s)
  else if isFloatLit s then .float s
  else .str s

/-- Model of the external decoder on one trimmed value position: a flow
sequence `[a, b, ...]` decodes element-wise (an unclosed `[` is a
decoding error), anything else is a plain scalar. -/
def parseValueE (v : List Char) : Except Unit Yaml :=
  match v with
  | '[' :: rest =>
    if v.getLast? = some ']' then
      let inner := rest.dropLast
      if pyStrip inner = [] then .ok (.list [])
      else .ok (.list ((splitOnChar ',' inner).map fun p => parseScalar (pyStrip p)))
    else .error ()
  | _ => .ok (parseScalar (pyStrip v))

/-- Split a line at its first `:` (the `key: value` shape). -/
def splitAtColon : List Char → Option (List Char × List Char)
  | [] => none
  | c :: cs =>
    if c = ':' then some ([], cs)
    else (splitAtColon cs).map fun p => (c :: p.1, p.2)

/-- Whether a line is a `key: value` mapping line: a nonempty key before
the first `:`, and the `:` either ends the line or is followed by a
space. -/
def isMapLine (l : List Char) : Bool :=
  match splitAtColon l with
  | some (k, rest) => pyStrip k ≠ [] && (rest = [] || rest.headD ' ' = ' ')
  | none => false

/-- Decode one mapping line to its key/value pair. -/
def parseMapLine (l : List Char) : Except Unit (List Char × Yaml) :=
  match splitAtColon l with
  | some (k, rest) => (parseValueE (pyStrip rest)).map fun v => (pyStrip k, v)
  | none => .error ()

/-- Model of the external `yaml.safe_load` on the flat documents this
program feeds it: a whitespace-only document decodes to null, a single
non-mapping line to a plain scalar or flow sequence, and a document all
of whose nonempty lines are `key: value` lines to an insertion-ordered
mapping (later duplicates overriding earlier ones).  Any other shape is
treated as a decoding error. -/
def yaml_safe_load (doc : List Char) : Except Unit Yaml :=
  let ls := (splitOnChar '\n' doc).filter fun l => pyStrip l ≠ []
  match ls with
  | [] => .ok .null
  | [l] =>
    if isMapLine l then (parseMapLine l).map fun kv => .dict [kv]
    else parseValueE (pyStrip l)
  | _ =>
    if ls.all isMapLine then
      (ls.mapM parseMapLine).map fun kvs =>
        .dict (kvs.foldl (fun es kv => dictSet es kv.1 kv.2) [])
    else .error ()

/-- The frontmatter block captured by
`re.search(r"^---\n(.*?)\n---", content, re.DOTALL)`: without
`re.MULTILINE` the `^` anchors at the start of the string only, so the
content must begin with `---\n`, and the lazy group captures everything
up to the first later occurrence of `\n---`. -/
def frontBlock (content : List Char) : Option (List Char) :=
  if ("---\n".toList).isPrefixOf content then
    beforeFirstSub ("\n---".toList) (content.drop 4)
  else none

/-- `ProposalSummarizer.extract_frontmatter` (lines 21–34): a missing
block or a YAML decoding error yields the empty dict; in `erc` mode a
decoded value whose keys lack `erc` but contain `eip` gets the `eip`
value copied to `erc` — the membership tests and the subscripts follow
Python semantics on whatever value the decoder produced, so they can
raise `TypeError` (only `yaml.YAMLError` is caught). -/
def extract_frontmatter (ptype content : List Char) : Except PyErr Yaml :=
  match frontBlock content with
  | none => .ok (.dict [])
  | some body =>
    match yaml_safe_load body with
    | .error _ => .ok (.dict [])
    | .ok metadata =>
      if ptype = "erc".toList then
        match pyIn ("erc".toList) metadata with
        | .error e => .error e
        | .ok ercIn =>
          if ercIn then .ok metadata
          else
            match pyIn ("eip".toList) metadata with
            | .error e => .error e
            | .ok eipIn =>
              if eipIn then
                match pyGetItem metadata ("eip".toList) with
                | .error e => .error e
                | .ok v => pySetItem metadata ("erc".toList) v
              else .ok metadata
      else .ok metadata

/-- `ProposalSummarizer.extract_section` (lines 36–40): the regex
`## {section}\n(.*?)(?=\n## |$)` with `re.DOTALL`.  The literal
`## {section}\n` is found at its leftmost occurrence (anywhere in the
content, not only at a line start); the lazy group then stops at the
first following `\n## `, or, failing that, at the end of the content
(`$` also matches just before a final newline, which the subsequent
`.strip()` makes irrelevant except for dropping that newline).  The
captured text is stripped. -/
def extract_section (content sectionName : List Char) : Option (List Char) :=
  let pat := "## ".toList ++ sectionName ++ "\n".toList
  match afterFirstSub pat content with
  | none => none
  | some rest =>
    let body :=
      match beforeFirstSub ("\n## ".toList) rest with
      | some b => b
      | none => if rest.getLast? = some '\n' then rest.dropLast else rest
    some (pyStrip body)

/-- `ProposalSummarizer.truncate_to_tokens` (lines 42–47):
`words = text.split()`, `word_limit = int(max_tokens / 1.3)` (embedded
as the exactly-agreeing `Int.tdiv (10 * max_tokens) 13`), and
`' '.join(words[:word_limit])` with Python slice semantics. -/
def truncate_to_tokens (text : List Char) (max_tokens : Int) : List Char :=
  let words := pyWords text
  let word_limit : Int := Int.tdiv (10 * max_tokens) 13
  joinSep (" ".toList) (pySlice words word_limit)

/-- The four section labels and the headings they are extracted from, in
the fixed order of the `sections` dict literal (lines 83–88). -/
def sectionSpecs : List (List Char × List Char) :=
  [("SUMMARY".toList, "Abstract".toList),
   ("SPECIFICATION".toList, "Specification".toList),
   ("MOTIVATION".toList, "Motivation".toList),
   ("RATIONALE".toList, "Rationale".toList)]

/-- The header-field accesses of `generate_summary` in evaluation order
(lines 76–80): the `title` / `type` / `category` / `status` / `created`
gets (each an `AttributeError` on a non-dict), then the
`', '.join(str(r) for r in requires)` (a `TypeError` on a non-iterable
`requires`). -/
def headerFields (metadata requires : Yaml) :
    Except PyErr (Yaml × Yaml × Yaml × Yaml × Yaml × List Char) :=
  match pyDictGetD metadata ("title".toList) (.str ("Unknown".toList)) with
  | .error e => .error e
  | .ok t =>
    match pyDictGetD metadata ("type".toList) (.str ("Unknown".toList)) with
    | .error e => .error e
    | .ok ty =>
      match pyDictGetD metadata ("category".toList) (.str []) with
      | .error e => .error e
      | .ok cat =>
        match pyDictGetD metadata ("status".toList) (.str ("Unknown".toList)) with
        | .error e => .error e
        | .ok st =>
          match pyDictGetD metadata ("created".toList) (.str ("Unknown".toList)) with
          | .error e => .error e
          | .ok cr =>
            match pyJoinReq requires with
            | .error e => .error e
            | .ok rq => .ok (t, ty, cat, st, cr, rq)

/-- The `try` body of `ProposalSummarizer.generate_summary`
(lines 51–95), for a document whose content is already in memory.  An
error value carries the Python exception together with the value of the
local `proposal_num` at the moment of the raise — `none` when the raise
happened inside `extract_frontmatter` (line 55), before the
`proposal_num = 'Unknown'` assignment of line 58, and `some` of the
current string afterwards. -/
def generate_body (ptype content : List Char) (max_tokens : Int) :
    Except (Option (List Char) × PyErr) (List Char) :=
  match extract_frontmatter ptype content with
  | .error e => .error (none, e)
  | .ok metadata =>
    match (if ptype = "eip".toList then
             pyDictGetD metadata ("eip".toList) (.str ("Unknown".toList))
           else
             (match pyDictGetD metadata ("eip".toList) (.str ("Unknown".toList)) with
              | .error e => .error e
              | .ok d => pyDictGetD metadata ("erc".toList) d :
              Except PyErr Yaml)) with
    | .error e => .error (some ("Unknown".toList), e)
    | .ok pnv =>
      let pn := pyStr pnv
      match (match pyDictGetD metadata ("requires".toList) (.list []) with
             | .error e => .error e
             | .ok rv => headerFields metadata (wrapRequires rv) :
             Except PyErr (Yaml × Yaml × Yaml × Yaml × Yaml × List Char)) with
      | .error e => .error (some pn, e)
      | .ok (t, ty, cat, st, cr, rq) =>
        let section_budget : Int := Int.fdiv max_tokens 4
        let header : List (List Char) :=
          ["=== ".toList ++ upperStr ptype ++ "-".toList ++ pn ++ " ===".toList,
           "TITLE: ".toList ++ pyStr t,
           "TYPE: ".toList ++ pyStr ty ++ " ".toList ++ pyStr cat,
           "STATUS: ".toList ++ pyStr st,
           "CREATED: ".toList ++ pyStr cr,
           "REQUIRES: ".toList ++ rq ++ "\n".toList]
        let sects : List (List Char) :=
          sectionSpecs.filterMap fun spec =>
            match extract_section content spec.2 with
            | some sc =>
              if sc = [] then none
              else some (spec.1 ++ ":\n".toList ++
                         truncate_to_tokens sc section_budget ++ "\n".toList)
            | none => none
        .ok (joinSep ("\n".toList) (header ++ sects))

/-- The message text `str(e)` interpolated into the `ERROR processing`
record (modelled per exception kind; no claim depends on the exact
wording). -/
def errStr : PyErr → List Char
  | .typeError => "TypeError".toList
  | .attributeError => "AttributeError".toList
  | .keyError => "KeyError".toList
  | .unboundLocalError => "UnboundLocalError".toList

/-- `ProposalSummarizer.generate_summary` (lines 49–98): the `try` body,
with `except Exception` building `f"ERROR processing {proposal_num}:
{str(e)}\n"`.  When the exception was raised before line 58 bound
`proposal_num`, the handler's own f-string raises `UnboundLocalError`,
which propagates to the caller. -/
def generate_summary (ptype content : List Char) (max_tokens : Int) :
    Except PyErr (List Char) :=
  match generate_body ptype content max_tokens with
  | .ok rec => .ok rec
  | .error (some pn, e) =>
    .ok ("ERROR processing ".toList ++ pn ++ ": ".toList ++ errStr e ++ "\n".toList)
  | .error (none, _) => .error .unboundLocalError

/-- The three size tiers of `self.token_limits` (lines 15–19), in
iteration (insertion) order. -/
def token_limits : List (List Char × Int) :=
  [("short".toList, 128), ("medium".toList, 256), ("long".toList, 512)]

/-- Whether a file takes part in a tier's loop: `rglob('*.md')` keeps
names ending in `.md`, and line 108 then requires the lowercased name to
contain `{proposal_type}-`. -/
def candidate_filter (ptype name : List Char) : Bool :=
  endsWithList (".md".toList) name && occursSub (ptype ++ "-".toList) (lowerStr name)

/-- The record one file contributes to one tier's `summaries` list
(lines 106–123), or `none`: non-candidates are never visited; an
exception anywhere in the per-file `try` (frontmatter extraction, the
`status` get, `.lower()`, or one propagated out of `generate_summary`)
is caught at line 122, appending nothing; a `moved` status (line 116)
skips the file; otherwise the `generate_summary` result is appended. -/
def tier_record (ptype : List Char) (limit : Int) (file : List Char × List Char) :
    Option (List Char) :=
  if candidate_filter ptype file.1 then
    match (extract_frontmatter ptype file.2).bind
            (fun metadata =>
              (pyDictGetD metadata ("status".toList) (.str [])).bind pyLowerV) with
    | .error _ => none
    | .ok statusLower =>
      if statusLower = "moved".toList then none
      else
        match generate_summary ptype file.2 limit with
        | .ok rec => some rec
        | .error _ => none
  else none

/-- One tier of `process_all_proposals`: the collected records of the
corpus (an ordered list of file-name/content pairs, in discovery order),
joined by `'\n\n'` (line 128). -/
def process_tier (ptype : List Char) (files : List (List Char × List Char))
    (limit : Int) : List Char :=
  joinSep ("\n\n".toList) (files.filterMap (tier_record ptype limit))

/-- `ProposalSummarizer.process_all_proposals` (lines 100–128): one
output artifact per tier, as a name/content pair — the name from the
fixed convention of line 126, the content from `process_tier`.  The
write itself (lines 127–128) happens unconditionally for every tier. -/
def process_all_proposals (ptype : List Char)
    (files : List (List Char × List Char)) : List (List Char × List Char) :=
  token_limits.map fun tier =>
    (ptype ++ "_summaries_".toList ++ tier.1 ++ ".txt".toList,
     process_tier ptype files tier.2)

/-- The example document of the end-to-end claim: a frontmatter header
with fields eip 1, title Test, status Draft, requires 5, followed by an
Abstract section. -/
def c1_document : List Char :=
  "---\neip: 1\ntitle: Test\nstatus: Draft\nrequires: 5\n---\n## Abstract\nHello world example text.".toList

/-- The summary record the program produces for `c1_document` at the
`short` tier. -/
def c1_record : List Char :=
  "=== EIP-1 ===\nTITLE: Test\nTYPE: Unknown \nSTATUS: Draft\nCREATED: Unknown\nREQUIRES: 5\n\nSUMMARY:\nHello world example text.\n".toList

theorem occursSub_correct (p s : List Char) : occursSub p s = true ↔ p <:+: s := by
  induction s with
  | nil => simp [occursSub]
  | cons c t ih => simp [occursSub, List.infix_cons_iff, ih]

theorem afterFirstSub_eq_none (p s : List Char) :
    afterFirstSub p s = none ↔ occursSub p s = false := by
  induction s with
  | nil =>
    cases h : p.isPrefixOf ([] : List Char) <;> simp [afterFirstSub, occursSub, h]
  | cons c t ih =>
    cases h : p.isPrefixOf (c :: t) <;> simp [afterFirstSub, occursSub, h, ih]

theorem pyWordsAux_append_word (w t acc : List Char)
    (hw : ∀ c ∈ w, c.isWhitespace = false) :
    pyWordsAux (w ++ t) acc = pyWordsAux t (w.reverse ++ acc) := by
  induction w generalizing acc with
  | nil => simp
  | cons c cs ih =>
    have hc : c.isWhitespace = false := hw c (List.mem_cons_self c cs)
    rw [List.cons_append]
    simp only [pyWordsAux, hc, Bool.false_eq_true, if_false]
    rw [ih (c :: acc) fun x hx => hw x (List.mem_cons_of_mem c hx)]
    simp

theorem pyWords_joinSep (ws : List (List Char))
    (h : ∀ w ∈ ws, w ≠ [] ∧ ∀ c ∈ w, c.isWhitespace = false) :
    pyWords (joinSep (" ".toList) ws) = ws := by
  induction ws with
  | nil => rfl
  | cons w rest ih =>
    obtain ⟨hw1, hw2⟩ := h w (List.mem_cons_self w rest)
    cases rest with
    | nil =>
      show pyWords (joinSep (" ".toList) [w]) = [w]
      have hstep := pyWordsAux_append_word w [] [] hw2
      simp only [List.append_nil] at hstep
      simp [joinSep, pyWords, hstep, pyWordsAux, hw1]
    | cons w2 rest2 =>
      have hstep := pyWordsAux_append_word w (' ' :: joinSep (" ".toList) (w2 :: rest2)) [] hw2
      simp only [List.append_nil] at hstep
      have hjoin : joinSep (" ".toList) (w :: w2 :: rest2) =
          w ++ (' ' :: joinSep (" ".toList) (w2 :: rest2)) := by
        show w ++ " ".toList ++ joinSep (" ".toList) (w2 :: rest2) = _
        simp
      rw [pyWords, hjoin, hstep]
      have hsp : (' ' : Char).isWhitespace = true := by decide
      have hrev : w.reverse ≠ [] := by simpa using hw1
      simp only [pyWordsAux, hsp, if_true, hrev, if_neg hrev, List.reverse_reverse]
      rw [show pyWordsAux (joinSep (" ".toList) (w2 :: rest2)) [] =
            pyWords (joinSep (" ".toList) (w2 :: rest2)) from rfl]
      rw [ih fun x hx => h x (List.mem_cons_of_mem w hx)]
      simp

theorem pyWordsAux_sound (s : List Char) :
    ∀ acc, (∀ c ∈ acc, c.isWhitespace = false) →
      ∀ w ∈ pyWordsAux s acc, w ≠ [] ∧ ∀ c ∈ w, c.isWhitespace = false := by
  induction s with
  | nil =>
    intro acc hacc w hw
    by_cases hz : acc = []
    · simp [pyWordsAux, hz] at hw
    · simp only [pyWordsAux, if_neg hz, List.mem_singleton] at hw
      subst hw
      exact ⟨by simpa using hz, fun c hc => hacc c (by simpa using hc)⟩
  | cons c cs ih =>
    intro acc hacc w hw
    cases hc : c.isWhitespace with
    | true =>
      by_cases hz : acc = []
      · simp only [pyWordsAux, hc, if_true, hz, if_pos rfl] at hw
        exact ih [] (by simp) w hw
      · simp only [pyWordsAux, hc, if_true, if_neg hz, List.mem_cons] at hw
        rcases hw with hw | hw
        · subst hw
          exact ⟨by simpa using hz, fun x hx => hacc x (by simpa using hx)⟩
        · exact ih [] (by simp) w hw
    | false =>
      simp only [pyWordsAux, hc, Bool.false_eq_true, if_false] at hw
      refine ih (c :: acc) ?_ w hw
      intro x hx
      rcases List.mem_cons.mp hx with hx | hx
      · subst hx; exact hc
      · exact hacc x hx

theorem pyWords_sound (s : List Char) :
    ∀ w ∈ pyWords s, w ≠ [] ∧ ∀ c ∈ w, c.isWhitespace = false :=
  pyWordsAux_sound s [] (by simp)

set_option maxRecDepth 4000 in
/-- C1: for the document whose header is eip 1 / title Test /
status Draft / requires 5 and whose body is an Abstract section with
text Hello world example text., summarizing at the short tier
(max_tokens 128) yields the record starting with the line
=== EIP-1 ===, containing the line REQUIRES: 5, and ending with a
SUMMARY block whose body is exactly the untruncated abstract text. -/
theorem c1_end_to_end :
    generate_summary ("eip".toList) c1_document 128 = Except.ok c1_record ∧
    ("=== EIP-1 ===\n".toList <+: c1_record) ∧
    ("\nREQUIRES: 5\n".toList <:+: c1_record) ∧
    ("SUMMARY:\nHello world example text.\n".toList <:+ c1_record) :=
  ⟨rfl, by decide, by decide, by decide⟩

/-- C2 counterexample: in erc mode, a frontmatter block whose body
decodes to the integer 5 (not a mapping) makes the membership test
raise TypeError out of extract_frontmatter — refuting the claim that
metadata parsing never raises and yields an empty mapping whenever the
block does not decode to a mapping. -/
theorem c2_counterexample :
    extract_frontmatter ("erc".toList) ("---\n5\n---".toList) =
      Except.error PyErr.typeError := rfl

/-- C2 amended: when no frontmatter block exists, or the block body
fails to decode (a YAML parse error), extract_frontmatter returns the
empty mapping and never raises, for every proposal type; a block that
decodes successfully to a non-mapping value is instead returned as-is
or, in erc mode, can raise TypeError. -/
theorem c2_amended_parse (ptype content : List Char)
    (h : frontBlock content = none ∨
         ∃ b, frontBlock content = some b ∧ yaml_safe_load b = Except.error ()) :
    extract_frontmatter ptype content = Except.ok (Yaml.dict []) := by
  rcases h with h | ⟨b, hb, he⟩
  · simp [extract_frontmatter, h]
  · simp [extract_frontmatter, hb, he]

theorem c2_amended_parse_witness :
    frontBlock ("hello".toList) = none ∧
    extract_frontmatter ("eip".toList) ("hello".toList) = Except.ok (Yaml.dict []) :=
  ⟨rfl, c2_amended_parse ("eip".toList) ("hello".toList) (Or.inl rfl)⟩

/-- C3: for every text and positive max_tokens, the truncated result
has at most int(max_tokens / 1.3) words (embedded as
Int.tdiv (10 * max_tokens) 13), and when the original word count is
within that limit the result is the original text with whitespace
normalized (its words rejoined by single spaces). -/
theorem c3_truncate_bound (text : List Char) (n : Int) (h : 0 < n) :
    ((pyWords (truncate_to_tokens text n)).length : Int) ≤ Int.tdiv (10 * n) 13 ∧
    (((pyWords text).length : Int) ≤ Int.tdiv (10 * n) 13 →
      truncate_to_tokens text n = joinSep (" ".toList) (pyWords text)) := by
  have hnn : 0 ≤ Int.tdiv (10 * n) 13 := Int.tdiv_nonneg (by omega) (by omega)
  have htr : truncate_to_tokens text n =
      joinSep (" ".toList) ((pyWords text).take (Int.tdiv (10 * n) 13).toNat) := by
    simp [truncate_to_tokens, pySlice, hnn]
  constructor
  · rw [htr, pyWords_joinSep _ fun w hw => pyWords_sound text w (List.take_subset _ _ hw)]
    have hlen := List.length_take ((Int.tdiv (10 * n) 13).toNat) (pyWords text)
    omega
  · intro hle
    have hle' : (pyWords text).length ≤ (Int.tdiv (10 * n) 13).toNat := by omega
    rw [htr, List.take_of_length_le hle']

theorem c3_truncate_bound_witness :
    (0 : Int) < 13 ∧
    (((pyWords (truncate_to_tokens ("a b c".toList) 13)).length : Int) ≤
        Int.tdiv (10 * 13) 13 ∧
     (((pyWords ("a b c".toList)).length : Int) ≤ Int.tdiv (10 * 13) 13 →
       truncate_to_tokens ("a b c".toList) 13 =
         joinSep (" ".toList) (pyWords ("a b c".toList)))) :=
  ⟨by decide, c3_truncate_bound ("a b c".toList) 13 (by decide)⟩

/-- C4 counterexample: a heading occurrence that is not at a line start
still matches — for content whose first line is x## Abstract, no line
equals ## Abstract, yet extract_section returns the following text
instead of None, refuting the claimed equivalence with a line matching
the anchored pattern. -/
theorem c4_counterexample :
    extract_section ("x## Abstract\nhello".toList) ("Abstract".toList) =
      some ("hello".toList) ∧
    ∀ l ∈ splitOnChar '\n' ("x## Abstract\nhello".toList),
      l ≠ ("## Abstract".toList) :=
  ⟨rfl, by decide⟩

/-- C4 amended: extract_section returns None exactly when the string
made of two hashes, a space, the heading and a newline does not occur as
a substring of the content (so a heading on the final line with no
trailing newline is missed, and an occurrence in the middle of a line
counts); otherwise it returns the text from after the first such
occurrence up to the next newline-hash-hash-space boundary or the end
of content, trimmed. -/
theorem c4_amended_extract (content sectionName : List Char) :
    extract_section content sectionName = none ↔
      ¬ (("## ".toList ++ sectionName ++ "\n".toList) <:+: content) := by
  constructor
  · intro hnone hinf
    rw [← occursSub_correct] at hinf
    cases ha : afterFirstSub ("## ".toList ++ sectionName ++ "\n".toList) content with
    | none =>
      rw [(afterFirstSub_eq_none _ _).mp ha] at hinf
      cases hinf
    | some rest =>
      simp only [extract_section] at hnone
      rw [ha] at hnone
      simp at hnone
  · intro hninf
    have hocc : occursSub ("## ".toList ++ sectionName ++ "\n".toList) content = false := by
      cases hx : occursSub ("## ".toList ++ sectionName ++ "\n".toList) content
      · rfl
      · exact absurd ((occursSub_correct _ _).mp hx) hninf
    simp only [extract_section]
    rw [(afterFirstSub_eq_none _ _).mpr hocc]

/-- C5 counterexample: a non-integer scalar under requires — here the
float 1.5 — is passed through unwrapped, so the value used to build the
record is not an ordered sequence, refuting the claim that every bare
scalar is wrapped into a one-element sequence. -/
theorem c5_counterexample :
    normalize_requires [(("requires".toList), Yaml.float ("1.5".toList))] =
      Yaml.float ("1.5".toList) ∧
    isYamlList (Yaml.float ("1.5".toList)) = false :=
  ⟨rfl, rfl⟩

/-- C5 amended: the requires normalization wraps an integer scalar into
a one-element sequence, turns an absent or null value into an empty
sequence, and passes a list through unchanged; other scalars (strings,
floats) are passed through unwrapped rather than being wrapped. -/
theorem c5_amended_requires (es : List (List Char × Yaml)) :
    (∀ n : Int, dictGetD es ("requires".toList) (Yaml.list []) = Yaml.int n →
        normalize_requires es = Yaml.list [Yaml.int n]) ∧
    (dictGetD es ("requires".toList) (Yaml.list []) = Yaml.null →
        normalize_requires es = Yaml.list []) ∧
    (dictLookup es ("requires".toList) = none →
        normalize_requires es = Yaml.list []) ∧
    (∀ xs, dictGetD es ("requires".toList) (Yaml.list []) = Yaml.list xs →
        normalize_requires es = Yaml.list xs) := by
  refine ⟨?_, ?_, ?_, ?_⟩
  · intro n hn
    unfold normalize_requires
    rw [hn]
    rfl
  · intro hn
    unfold normalize_requires
    rw [hn]
    rfl
  · intro hn
    unfold normalize_requires dictGetD
    rw [hn]
    rfl
  · intro xs hx
    unfold normalize_requires
    rw [hx]
    rfl

theorem c5_amended_requires_witness :
    normalize_requires [(("requires".toList), Yaml.int 5)] = Yaml.list [Yaml.int 5] ∧
    normalize_requires [] = Yaml.list [] :=
  ⟨(c5_amended_requires [(("requires".toList), Yaml.int 5)]).1 5 rfl,
   (c5_amended_requires []).2.2.1 rfl⟩

/-- C6: for the erc proposal type and a document whose frontmatter body
decodes to the non-mapping 5, the TypeError raised inside
extract_frontmatter reaches the handler before line 58 has bound
proposal_num, so the handler f-string itself raises UnboundLocalError
and generate_summary propagates an exception instead of returning an
ERROR processing record. -/
theorem c6_handler_crash :
    generate_summary ("erc".toList) ("---\n5\n---".toList) 128 =
      Except.error PyErr.unboundLocalError := rfl

/-- C8 counterexample: truncate with max_tokens equal to -2 computes the
word limit -1, which as a Python slice bound drops only the last word,
so the result a b is not the empty string, refuting the claim for every
nonpositive max_tokens. -/
theorem c8_counterexample :
    truncate_to_tokens ("a b c".toList) (-2) = "a b".toList ∧
    ("a b".toList : List Char) ≠ [] :=
  ⟨rfl, by decide⟩

/-- C8 amended: truncate returns the empty string for max_tokens 0 and
-1 (exactly the nonpositive values whose computed word limit is 0); for
max_tokens at most -2 the negative word limit acts as a slice from the
end and the result can be non-empty. -/
theorem c8_amended_nonpositive (text : List Char) (n : Int)
    (h1 : -1 ≤ n) (h2 : n ≤ 0) :
    truncate_to_tokens text n = [] := by
  have h0 : Int.tdiv (10 * n) 13 = 0 := by
    have hn : n = -1 ∨ n = 0 := by omega
    rcases hn with hn | hn <;> subst hn <;> decide
  simp [truncate_to_tokens, h0, pySlice, joinSep]

theorem c8_amended_nonpositive_witness :
    (-1 : Int) ≤ -1 ∧ (-1 : Int) ≤ 0 ∧
    truncate_to_tokens ("a b c".toList) (-1) = [] :=
  ⟨by decide, by decide,
   c8_amended_nonpositive ("a b c".toList) (-1) (by decide) (by decide)⟩

/-- C10: when every file of the corpus contributes no record to any
tier (it fails the extension or name filter, or is skipped), processing
still produces exactly one artifact per tier, named by the fixed
convention, and each artifact content is the empty string. -/
theorem c10_empty_artifacts (ptype : List Char)
    (files : List (List Char × List Char))
    (h : ∀ f ∈ files, ∀ limit : Int, tier_record ptype limit f = none) :
    process_all_proposals ptype files =
      [(ptype ++ "_summaries_".toList ++ "short".toList ++ ".txt".toList, []),
       (ptype ++ "_summaries_".toList ++ "medium".toList ++ ".txt".toList, []),
       (ptype ++ "_summaries_".toList ++ "long".toList ++ ".txt".toList, [])] := by
  have hz : ∀ limit : Int, process_tier ptype files limit = [] := by
    intro limit
    unfold process_tier
    rw [List.filterMap_eq_nil_iff.mpr fun a ha => h a ha limit]
    rfl
  simp [process_all_proposals, token_limits, hz]

theorem c10_empty_artifacts_witness :
    process_all_proposals ("eip".toList) [(("eip-1.txt".toList), ("x".toList))] =
      [("eip".toList ++ "_summaries_".toList ++ "short".toList ++ ".txt".toList, []),
       ("eip".toList ++ "_summaries_".toList ++ "medium".toList ++ ".txt".toList, []),
       ("eip".toList ++ "_summaries_".toList ++ "long".toList ++ ".txt".toList, [])] :=
  c10_empty_artifacts ("eip".toList) [(("eip-1.txt".toList), ("x".toList))]
    (by intro f hf limit; simp only [List.mem_singleton] at hf; subst hf; rfl)

theorem joinSep_chunk (sep a b c d : List Char) (rest : List (List Char)) :
    (c ++ sep) <:+: joinSep sep (a :: b :: c :: d :: rest) := by
  refine ⟨a ++ sep ++ (b ++ sep), joinSep sep (d :: rest), ?_⟩
  simp [joinSep, List.append_assoc]

/-- C7: a candidate document whose parsed metadata status equals moved
case-insensitively is skipped entirely — removing it from the corpus
leaves every tier output unchanged, so it contributes neither a summary
record nor an error record to any tier artifact. -/
theorem c7_moved_skipped (ptype name content : List Char) (m : Yaml) (s : List Char)
    (pre post : List (List Char × List Char)) (limit : Int)
    (h1 : extract_frontmatter ptype content = Except.ok m)
    (h2 : pyDictGetD m ("status".toList) (Yaml.str []) = Except.ok (Yaml.str s))
    (h3 : lowerStr s = "moved".toList) :
    process_tier ptype (pre ++ (name, content) :: post) limit =
      process_tier ptype (pre ++ post) limit := by
  have hbind : ((extract_frontmatter ptype content).bind fun metadata =>
      (pyDictGetD metadata ("status".toList) (Yaml.str [])).bind pyLowerV) =
      Except.ok ("moved".toList) := by
    rw [h1]
    show (pyDictGetD m ("status".toList) (Yaml.str [])).bind pyLowerV = _
    rw [h2]
    show Except.ok (lowerStr s) = _
    rw [h3]
  have hrec : tier_record ptype limit (name, content) = none := by
    unfold tier_record
    dsimp only
    rw [hbind]
    simp
  unfold process_tier
  rw [List.filterMap_append, List.filterMap_append, List.filterMap_cons_none hrec]

theorem c7_moved_skipped_witness :
    process_tier ("eip".toList)
      [(("eip-1.md".toList), ("---\nstatus: Moved\n---\nbody".toList))] 128 =
      process_tier ("eip".toList) [] 128 :=
  c7_moved_skipped ("eip".toList) ("eip-1.md".toList)
    ("---\nstatus: Moved\n---\nbody".toList)
    (Yaml.dict [(("status".toList), Yaml.str ("Moved".toList))]) ("Moved".toList)
    [] [] 128 rfl rfl rfl

/-- C9: for every proposal type and every successfully summarized
document whose metadata lacks a category field, the TYPE line of the
record carries a trailing space after the type value — the f-string
always inserts the separating space even when the category interpolates
to the empty string. -/
theorem c9_type_trailing_space (ptype content : List Char)
    (es : List (List Char × Yaml)) (mt : Int) (rec : List Char)
    (h1 : extract_frontmatter ptype content = Except.ok (Yaml.dict es))
    (h2 : dictLookup es ("category".toList) = none)
    (h3 : generate_body ptype content mt = Except.ok rec) :
    ("TYPE: ".toList ++ pyStr (dictGetD es ("type".toList) (Yaml.str ("Unknown".toList)))
      ++ " ".toList ++ "\n".toList) <:+: rec := by
  unfold generate_body at h3
  rw [h1] at h3
  simp only [] at h3
  by_cases hp : ptype = ("eip".toList : List Char)
  · rw [if_pos hp] at h3
    simp only [pyDictGetD, headerFields] at h3
    cases hj : pyJoinReq (wrapRequires (dictGetD es ("requires".toList) (Yaml.list []))) with
    | error e =>
      rw [hj] at h3
      simp at h3
    | ok rq =>
      rw [hj] at h3
      simp only [List.cons_append, List.nil_append] at h3
      have hcat : pyStr (dictGetD es ("category".toList) (Yaml.str [])) = [] := by
        unfold dictGetD
        rw [h2]
        rfl
      rw [hcat, List.append_nil] at h3
      have hrec := Except.ok.inj h3
      rw [← hrec]
      exact joinSep_chunk _ _ _ _ _ _
  · rw [if_neg hp] at h3
    simp only [pyDictGetD, headerFields] at h3
    cases hj : pyJoinReq (wrapRequires (dictGetD es ("requires".toList) (Yaml.list []))) with
    | error e =>
      rw [hj] at h3
      simp at h3
    | ok rq =>
      rw [hj] at h3
      simp only [List.cons_append, List.nil_append] at h3
      have hcat : pyStr (dictGetD es ("category".toList) (Yaml.str [])) = [] := by
        unfold dictGetD
        rw [h2]
        rfl
      rw [hcat, List.append_nil] at h3
      have hrec := Except.ok.inj h3
      rw [← hrec]
      exact joinSep_chunk _ _ _ _ _ _

set_option maxRecDepth 4000 in
theorem c9_type_trailing_space_witness :
    ("TYPE: ".toList ++
        pyStr (dictGetD
          [(("eip".toList), Yaml.int 1), (("title".toList), Yaml.str ("Test".toList)),
           (("status".toList), Yaml.str ("Draft".toList)),
           (("requires".toList), Yaml.int 5)] ("type".toList)
          (Yaml.str ("Unknown".toList)))
      ++ " ".toList ++ "\n".toList) <:+: c1_record :=
  c9_type_trailing_space ("eip".toList) c1_document
    [(("eip".toList), Yaml.int 1), (("title".toList), Yaml.str ("Test".toList)),
     (("status".toList), Yaml.str ("Draft".toList)), (("requires".toList), Yaml.int 5)]
    128 c1_record rfl rfl rfl
